import Mathlib

/-!
Verification of `stream_spi_rpi5.py` (MI48 thermal camera acquisition loop).

Shallow embedding conventions:
* numpy sample values are modelled as exact rationals (`ℚ`); for the data in
  range here (raw `uint16` samples, so magnitudes below `2^16`) the float32
  products `(v - min) * 255.0` are below `2^24` and hence exact, and the final
  division rounds to a value in the same unit interval, so the exact-rational
  model agrees with the float32 code on every property proved below;
* `.astype(np.uint8)` on a nonnegative float truncates toward zero, modelled
  by `Int.floor` followed by `Int.toNat`;
* text output is modelled as `List Char`;
* the acquisition loop is modelled as a fold over the sequence of driver
  reads, with explicit state (recording-sink lines, log entries, displayed
  images).
-/

namespace MI48Stream

/-! ## Frame min / max (numpy `.min()` / `.max()` over the flattened frame) -/

/-- Minimum of a frame's samples; `numpy`'s `img_float.min()` (line 208).
Empty frames never occur on the sensor; the `[]` case is a junk value. -/
def frameMin : List ℚ → ℚ
  | [] => 0
  | x :: xs => xs.foldl min x

/-- Maximum of a frame's samples; `numpy`'s `img_float.max()` (line 208). -/
def frameMax : List ℚ → ℚ
  | [] => 0
  | x :: xs => xs.foldl max x

theorem foldl_min_le_init (xs : List ℚ) (a : ℚ) : xs.foldl min a ≤ a := by
  induction xs generalizing a with
  | nil => exact le_refl a
  | cons x xs ih => exact le_trans (ih (min a x)) (min_le_left a x)

theorem foldl_min_le_mem {xs : List ℚ} {b : ℚ} (h : b ∈ xs) (a : ℚ) :
    xs.foldl min a ≤ b := by
  induction xs generalizing a with
  | nil => cases h
  | cons x xs ih =>
    rcases List.mem_cons.mp h with rfl | hmem
    · exact le_trans (foldl_min_le_init xs (min a b)) (min_le_right a b)
    · exact ih hmem (min a x)

theorem init_le_foldl_max (xs : List ℚ) (a : ℚ) : a ≤ xs.foldl max a := by
  induction xs generalizing a with
  | nil => exact le_refl a
  | cons x xs ih => exact le_trans (le_max_left a x) (ih (max a x))

theorem mem_le_foldl_max {xs : List ℚ} {b : ℚ} (h : b ∈ xs) (a : ℚ) :
    b ≤ xs.foldl max a := by
  induction xs generalizing a with
  | nil => cases h
  | cons x xs ih =>
    rcases List.mem_cons.mp h with rfl | hmem
    · exact le_trans (le_max_right a b) (init_le_foldl_max xs (max a b))
    · exact ih hmem (max a x)

theorem frameMin_le {xs : List ℚ} {v : ℚ} (h : v ∈ xs) : frameMin xs ≤ v := by
  cases xs with
  | nil => cases h
  | cons x t =>
    rcases List.mem_cons.mp h with rfl | hmem
    · exact foldl_min_le_init t v
    · exact foldl_min_le_mem hmem x

theorem le_frameMax {xs : List ℚ} {v : ℚ} (h : v ∈ xs) : v ≤ frameMax xs := by
  cases xs with
  | nil => cases h
  | cons x t =>
    rcases List.mem_cons.mp h with rfl | hmem
    · exact init_le_foldl_max t v
    · exact mem_le_foldl_max hmem x

/-! ## Normalization (lines 207–213) -/

/-- One sample of `((img_float - img_min) * 255.0 / (img_max - img_min))
.astype(np.uint8)` (line 211): exact rational arithmetic, then truncation
toward zero (the value is nonnegative, so this is `Int.floor` + `Int.toNat`). -/
def normalizeSample (mn mx v : ℚ) : ℕ :=
  (Int.floor ((v - mn) * 255 / (mx - mn))).toNat

/-- The normalization step of the main loop (lines 210–213): min–max scale to
8 bits when `img_max > img_min`, else `np.zeros_like(img_float, dtype=np.uint8)`. -/
def normalizeFrame (xs : List ℚ) : List ℕ :=
  if frameMin xs < frameMax xs then
    xs.map (normalizeSample (frameMin xs) (frameMax xs))
  else
    xs.map (fun _ => 0)

theorem normalizeSample_le_255 {mn mx v : ℚ} (hlt : mn < mx)
    (h2 : v ≤ mx) : normalizeSample mn mx v ≤ 255 := by
  have hd : (0 : ℚ) < mx - mn := by linarith
  have hq : (v - mn) * 255 / (mx - mn) ≤ 255 := by
    rw [div_le_iff₀ hd]
    nlinarith
  have hfloor : Int.floor ((v - mn) * 255 / (mx - mn)) ≤ 255 := by
    have := Int.floor_le_floor hq
    simpa using this
  exact Int.toNat_le.mpr hfloor

theorem normalizeSample_min {mn mx : ℚ} : normalizeSample mn mx mn = 0 := by
  simp [normalizeSample]

theorem normalizeSample_max {mn mx : ℚ} (hlt : mn < mx) :
    normalizeSample mn mx mx = 255 := by
  have hne : mx - mn ≠ 0 := by linarith
  unfold normalizeSample
  rw [mul_comm, mul_div_assoc, div_self hne, mul_one]
  simp

/-- **C1.** For every frame whose maximum sample strictly exceeds its minimum,
the normalization step maps each sample `v` to `(v - min) * 255 / (max - min)`
truncated to an 8-bit value, every output sample lies in `[0, 255]` (the lower
bound is automatic since outputs are `ℕ`), the minimum sample maps to `0`
exactly, and the maximum sample maps to `255` exactly. -/
theorem c1_minmax_normalization (xs : List ℚ) (h : frameMin xs < frameMax xs) :
    normalizeFrame xs = xs.map (normalizeSample (frameMin xs) (frameMax xs)) ∧
    (∀ y ∈ normalizeFrame xs, y ≤ 255) ∧
    normalizeSample (frameMin xs) (frameMax xs) (frameMin xs) = 0 ∧
    normalizeSample (frameMin xs) (frameMax xs) (frameMax xs) = 255 := by
  refine ⟨by simp [normalizeFrame, h], ?_, normalizeSample_min,
    normalizeSample_max h⟩
  intro y hy
  rw [normalizeFrame, if_pos h] at hy
  rcases List.mem_map.mp hy with ⟨v, hv, rfl⟩
  exact normalizeSample_le_255 h (le_frameMax hv)

/-- Witness for C1 at the concrete frame `[1, 3, 2]`. -/
theorem c1_minmax_normalization_witness :
    frameMin [(1 : ℚ), 3, 2] < frameMax [(1 : ℚ), 3, 2] ∧
    (normalizeFrame [(1 : ℚ), 3, 2] =
      ([(1 : ℚ), 3, 2]).map
        (normalizeSample (frameMin [(1 : ℚ), 3, 2]) (frameMax [(1 : ℚ), 3, 2])) ∧
      (∀ y ∈ normalizeFrame [(1 : ℚ), 3, 2], y ≤ 255) ∧
      normalizeSample (frameMin [(1 : ℚ), 3, 2]) (frameMax [(1 : ℚ), 3, 2])
        (frameMin [(1 : ℚ), 3, 2]) = 0 ∧
      normalizeSample (frameMin [(1 : ℚ), 3, 2]) (frameMax [(1 : ℚ), 3, 2])
        (frameMax [(1 : ℚ), 3, 2]) = 255) :=
  ⟨by decide, c1_minmax_normalization [(1 : ℚ), 3, 2] (by decide)⟩

/-- **C2.** For every frame whose maximum sample equals its minimum sample (a
flat frame), the normalized 8-bit output image is entirely zero-valued and has
the same shape (here: length, the frame being kept flattened) as the input. -/
theorem c2_flat_frame_zero (xs : List ℚ) (h : frameMax xs = frameMin xs) :
    normalizeFrame xs = xs.map (fun _ => 0) ∧
    (normalizeFrame xs).length = xs.length ∧
    ∀ y ∈ normalizeFrame xs, y = 0 := by
  have hnot : ¬ frameMin xs < frameMax xs := by rw [h]; exact lt_irrefl _
  refine ⟨by rw [normalizeFrame, if_neg hnot], ?_, ?_⟩
  · rw [normalizeFrame, if_neg hnot, List.length_map]
  · intro y hy
    rw [normalizeFrame, if_neg hnot] at hy
    rcases List.mem_map.mp hy with ⟨v, _, rfl⟩
    rfl

/-- Witness for C2 at the concrete flat frame `[2, 2]`. -/
theorem c2_flat_frame_zero_witness :
    frameMax [(2 : ℚ), 2] = frameMin [(2 : ℚ), 2] ∧
    (normalizeFrame [(2 : ℚ), 2] = ([(2 : ℚ), 2]).map (fun _ => 0) ∧
      (normalizeFrame [(2 : ℚ), 2]).length = ([(2 : ℚ), 2]).length ∧
      ∀ y ∈ normalizeFrame [(2 : ℚ), 2], y = 0) :=
  ⟨by decide, c2_flat_frame_zero [(2 : ℚ), 2] (by decide)⟩

/-! ## Command-line parsing (`parse_args`, lines 62–68) and `main`'s use of it
(line 157).

`argparse.add_argument('-fps', '--framerate', ...)` stores the parsed value in
the `Namespace` under a destination attribute derived from the option strings:
the first *long* option string (two leading dashes) when one exists, with the
leading dashes stripped and internal dashes turned into underscores; otherwise
the first option string.  Attribute access on the `Namespace` for a name that
was never stored raises `AttributeError`; this is modelled by an association
list keyed by destination name and an `Option`-returning lookup. -/

/-- An option string beginning with two dashes, e.g. `--framerate`. -/
def isLongOption (s : List Char) : Bool :=
  match s with
  | '-' :: '-' :: _ => true
  | _ => false

/-- argparse's destination name of one option string: strip leading dashes,
replace remaining dashes with underscores. -/
def destChars (s : List Char) : List Char :=
  (s.dropWhile (fun c => c == '-')).map (fun c => if c == '-' then '_' else c)

/-- argparse's inferred `dest` for an `add_argument` call: from the first long
option string when present, else from the first option string. -/
def addArgDest (optionStrings : List (List Char)) : List Char :=
  match optionStrings.filter (fun s => isLongOption s) with
  | long :: _ => destChars long
  | [] =>
    match optionStrings with
    | o :: _ => destChars o
    | [] => []

/-- A parsed argument value in the `Namespace`. -/
inductive ArgValue where
  | boolVal (b : Bool)
  | numVal (q : ℚ)
deriving DecidableEq

/-- Option strings of `parser.add_argument('-r', '--record', ...)` (line 64). -/
def recordOptionStrings : List (List Char) :=
  [['-', 'r'], ['-', '-', 'r', 'e', 'c', 'o', 'r', 'd']]

/-- Option strings of `parser.add_argument('-fps', '--framerate', ...)`
(line 66). -/
def framerateOptionStrings : List (List Char) :=
  [['-', 'f', 'p', 's'], ['-', '-', 'f', 'r', 'a', 'm', 'e', 'r', 'a', 't', 'e']]

/-- The `Namespace` returned by `parse_args()` when the parsed flag values are
`record` and `framerate` (the latter defaults to `7` when the flag is absent):
each registered argument is stored under its inferred destination name. -/
def parseArgsNamespace (record : Bool) (framerate : ℚ) :
    List (List Char × ArgValue) :=
  [(addArgDest recordOptionStrings, ArgValue.boolVal record),
   (addArgDest framerateOptionStrings, ArgValue.numVal framerate)]

/-- Python attribute access `getattr(namespace, name)`: `some` the stored
value, `none` meaning `AttributeError`. -/
def getattrNS (ns : List (List Char × ArgValue)) (name : List Char) :
    Option ArgValue :=
  (ns.find? (fun p => p.1 == name)).map (fun p => p.2)

/-- The attribute `main` reads at line 157: `mi48.set_fps(args.fps)`. -/
def fpsAttr : List Char := ['f', 'p', 's']

/-- The attribute under which argparse actually stores the `--framerate`
value. -/
def framerateAttr : List Char :=
  ['f', 'r', 'a', 'm', 'e', 'r', 'a', 't', 'e']

/-- The value `main` obtains for `args.fps` before calling `set_fps`. -/
def setFpsArgument (record : Bool) (framerate : ℚ) : Option ArgValue :=
  getattrNS (parseArgsNamespace record framerate) fpsAttr

/-- **C3.** The claim says the parsed `--framerate` value is passed to the
driver's set-framerate operation.  In the code, `add_argument('-fps',
'--framerate', ...)` stores the value under destination `framerate` (the first
long option string), but line 157 reads `args.fps`; that attribute does not
exist, so `getattr` fails (`AttributeError`) on every invocation and
`mi48.set_fps` is never reached.  This theorem exhibits the bug: the `fps`
lookup yields nothing while the value sits under `framerate`. -/
theorem c3_args_fps_attribute_missing : ∀ (r : Bool) (f : ℚ),
    setFpsArgument r f = none ∧
    getattrNS (parseArgsNamespace r f) framerateAttr =
      some (ArgValue.numVal f) := by
  intro r f
  exact ⟨rfl, rfl⟩

/-! ## Frame serialization (`write_frame`, lines 75–82) -/

/-- The character of one decimal digit (callers only pass values below 10). -/
def digitChar : ℕ → Char
  | 0 => '0'
  | 1 => '1'
  | 2 => '2'
  | 3 => '3'
  | 4 => '4'
  | 5 => '5'
  | 6 => '6'
  | 7 => '7'
  | 8 => '8'
  | _ => '9'

/-- Decimal digit characters of a natural number, most significant first;
the rendering behind Python's `'{:n}'` (C locale: plain decimal) and the
integer part of `'{:.2f}'`. -/
def natChars (n : ℕ) : List Char :=
  if h : n < 10 then [digitChar n]
  else natChars (n / 10) ++ [digitChar (n % 10)]
decreasing_by exact Nat.div_lt_self (by omega) (by omega)

/-- Whitespace used by `write_frame` as separators: the space after each
sample and the final newline. -/
def isSep (c : Char) : Bool := c == ' ' || c == '\n'

theorem digitChar_not_sep (n : ℕ) : isSep (digitChar n) = false := by
  rcases n with _ | _ | _ | _ | _ | _ | _ | _ | _ | n <;> rfl

theorem digitChar_beq_dot (n : ℕ) : (digitChar n == '.') = false := by
  rcases n with _ | _ | _ | _ | _ | _ | _ | _ | _ | n <;> rfl

theorem digitChar_ne_dot (n : ℕ) : digitChar n ≠ '.' :=
  ne_of_beq_false (digitChar_beq_dot n)

theorem natChars_ne_nil (n : ℕ) : natChars n ≠ [] := by
  rw [natChars]
  split
  · simp
  · simp

theorem mem_natChars_digitChar (n : ℕ) :
    ∀ c ∈ natChars n, ∃ m, c = digitChar m := by
  induction n using Nat.strong_induction_on with
  | _ n ih =>
    rw [natChars]
    split
    · intro c hc
      rw [List.mem_singleton] at hc
      exact ⟨n, hc⟩
    · intro c hc
      rcases List.mem_append.mp hc with h1 | h2
      · exact ih (n / 10) (Nat.div_lt_self (by omega) (by omega)) c h1
      · rw [List.mem_singleton] at h2
        exact ⟨n % 10, h2⟩

theorem natChars_not_sep {n : ℕ} {c : Char} (h : c ∈ natChars n) :
    isSep c = false := by
  rcases mem_natChars_digitChar n c h with ⟨m, rfl⟩
  exact digitChar_not_sep m

theorem natChars_ne_dot {n : ℕ} {c : Char} (h : c ∈ natChars n) : c ≠ '.' := by
  rcases mem_natChars_digitChar n c h with ⟨m, rfl⟩
  exact digitChar_ne_dot m

/-- `'{:n}'.format(v)` for a `uint16` sample `v` (line 78): a plain decimal
integer, no decimal point. -/
def fmtNat (v : ℕ) : List Char := natChars v

/-- The two digits after the decimal point: `k` is the fractional part in
hundredths, `k < 100`. -/
def twoFracChars (k : ℕ) : List Char :=
  [digitChar (k / 10), digitChar (k % 10)]

/-- `'{:.2f}'.format(q)` for a floating-point sample `q` (line 80): sign,
integer part, `'.'`, then exactly two fractional digits.  The magnitude is
rounded to the nearest hundredth (Python ties go to even; the tie-breaking
direction is irrelevant to every property proved here). -/
def fmtFixed2 (q : ℚ) : List Char :=
  let m : ℕ := (round (|q| * 100)).toNat
  (if q < 0 then ['-'] else []) ++ natChars (m / 100) ++ '.' :: twoFracChars (m % 100)

/-- One frame of raw samples with its numpy dtype: the MI48 delivers `uint16`
raw samples, anything else prints as floating point (`write_frame`'s
`arr.dtype == np.uint16` test, line 77). -/
inductive FrameData where
  | u16 (vs : List ℕ)
  | f32 (vs : List ℚ)
deriving DecidableEq

/-- `arr.size`: the number of samples in the flattened frame. -/
def FrameData.size : FrameData → ℕ
  | .u16 vs => vs.length
  | .f32 vs => vs.length

/-- The samples as exact rationals (for the display pipeline, which first
converts to `float32`). -/
def FrameData.samples : FrameData → List ℚ
  | .u16 vs => vs.map (fun v => (v : ℚ))
  | .f32 vs => vs

/-- `write_frame` (lines 75–82): `('{:n} ' * arr.size).format(*arr.ravel
(order='C')) + '\n'` for `uint16`, `('{:.2f} ' * arr.size).format(...) + '\n'`
otherwise — every sample in raster (row-major, `ravel(order='C')`) order
followed by one space, then a newline. -/
def writeFrame : FrameData → List Char
  | .u16 vs => (vs.map (fun v => fmtNat v ++ [' '])).flatten ++ ['\n']
  | .f32 vs => (vs.map (fun q => fmtFixed2 q ++ [' '])).flatten ++ ['\n']

/-- The sample tokens of a frame, in raster order. -/
def sampleTokens : FrameData → List (List Char)
  | .u16 vs => vs.map fmtNat
  | .f32 vs => vs.map fmtFixed2

/-- Whitespace tokenizer: split on spaces and newlines, dropping empty
pieces.  `acc` holds the current token reversed. -/
def splitTokensAux : List Char → List Char → List (List Char)
  | [], acc => if acc = [] then [] else [acc.reverse]
  | c :: cs, acc =>
    if isSep c then
      if acc = [] then splitTokensAux cs []
      else acc.reverse :: splitTokensAux cs []
    else splitTokensAux cs (c :: acc)

/-- The whitespace-separated tokens of a serialized line. -/
def splitTokens (cs : List Char) : List (List Char) := splitTokensAux cs []

theorem splitTokensAux_token (sep : Char) {t rest : List Char}
    (ht : ∀ c ∈ t, isSep c = false) (hsep : isSep sep = true) (acc : List Char) :
    splitTokensAux (t ++ sep :: rest) acc =
      if acc.reverse ++ t = [] then splitTokensAux rest []
      else (acc.reverse ++ t) :: splitTokensAux rest [] := by
  induction t generalizing acc with
  | nil =>
    simp only [List.nil_append, List.append_nil, splitTokensAux, hsep, if_true]
    by_cases hacc : acc = []
    · subst hacc; simp [splitTokensAux]
    · rw [if_neg hacc, if_neg (by simpa using hacc)]
  | cons c t ih =>
    have hc : isSep c = false := ht c (List.mem_cons_self c t)
    have ht' : ∀ x ∈ t, isSep x = false := fun x hx => ht x (List.mem_cons_of_mem c hx)
    simp only [List.cons_append, splitTokensAux, hc, List.append_eq]
    rw [if_neg (by simp), ih ht' (c :: acc)]
    have hco : (c :: acc).reverse ++ t = acc.reverse ++ c :: t := by
      simp
    rw [hco]

theorem splitTokens_line (ts : List (List Char))
    (hne : ∀ t ∈ ts, t ≠ [])
    (hfree : ∀ t ∈ ts, ∀ c ∈ t, isSep c = false) :
    splitTokens ((ts.map (fun t => t ++ [' '])).flatten ++ ['\n']) = ts := by
  induction ts with
  | nil => rfl
  | cons t ts ih =>
    have h1 : t ≠ [] := hne t (List.mem_cons_self t ts)
    have h2 : ∀ c ∈ t, isSep c = false :=
      hfree t (List.mem_cons_self t ts)
    have heq : ((t :: ts).map (fun t => t ++ [' '])).flatten ++ ['\n'] =
        t ++ ' ' :: ((ts.map (fun t => t ++ [' '])).flatten ++ ['\n']) := by
      simp
    rw [splitTokens, heq, splitTokensAux_token ' ' h2 rfl []]
    rw [List.reverse_nil, List.nil_append, if_neg h1]
    exact congrArg (List.cons t)
      (ih (fun u hu => hne u (List.mem_cons_of_mem t hu))
          (fun u hu => hfree u (List.mem_cons_of_mem t hu)))

theorem fmtNat_ne_nil (v : ℕ) : fmtNat v ≠ [] := natChars_ne_nil v

theorem fmtNat_sep_free {v : ℕ} : ∀ c ∈ fmtNat v, isSep c = false :=
  fun _ hc => natChars_not_sep hc

theorem dot_mem_fmtFixed2 (q : ℚ) : '.' ∈ fmtFixed2 q := by
  simp only [fmtFixed2]
  simp

theorem fmtFixed2_ne_nil (q : ℚ) : fmtFixed2 q ≠ [] := by
  intro h
  have hd := dot_mem_fmtFixed2 q
  rw [h] at hd
  cases hd

theorem fmtFixed2_sep_free {q : ℚ} : ∀ c ∈ fmtFixed2 q, isSep c = false := by
  intro c hc
  simp only [fmtFixed2] at hc
  rcases List.mem_append.mp hc with h12 | h3
  · rcases List.mem_append.mp h12 with h1 | h2
    · by_cases hq : q < 0
      · rw [if_pos hq, List.mem_singleton] at h1
        subst h1; rfl
      · rw [if_neg hq] at h1; cases h1
    · exact natChars_not_sep h2
  · rcases List.mem_cons.mp h3 with rfl | h4
    · rfl
    · unfold twoFracChars at h4
      rcases List.mem_cons.mp h4 with rfl | h5
      · exact digitChar_not_sep _
      · rcases List.mem_cons.mp h5 with rfl | h6
        · exact digitChar_not_sep _
        · cases h6

theorem splitTokens_writeFrame (fd : FrameData) :
    splitTokens (writeFrame fd) = sampleTokens fd := by
  cases fd with
  | u16 vs =>
    have hmm : (vs.map (fun v => fmtNat v ++ [' '])) =
        ((vs.map fmtNat).map (fun t => t ++ [' '])) := by
      rw [List.map_map]; rfl
    rw [writeFrame, hmm, sampleTokens]
    exact splitTokens_line (vs.map fmtNat)
      (by intro t ht; rcases List.mem_map.mp ht with ⟨v, _, rfl⟩; exact fmtNat_ne_nil v)
      (by intro t ht; rcases List.mem_map.mp ht with ⟨v, _, rfl⟩; exact fmtNat_sep_free)
  | f32 vs =>
    have hmm : (vs.map (fun q => fmtFixed2 q ++ [' '])) =
        ((vs.map fmtFixed2).map (fun t => t ++ [' '])) := by
      rw [List.map_map]; rfl
    rw [writeFrame, hmm, sampleTokens]
    exact splitTokens_line (vs.map fmtFixed2)
      (by intro t ht; rcases List.mem_map.mp ht with ⟨q, _, rfl⟩; exact fmtFixed2_ne_nil q)
      (by intro t ht; rcases List.mem_map.mp ht with ⟨q, _, rfl⟩; exact fmtFixed2_sep_free)

/-- **C4.** When serializing a frame for recording, every sample of an
unsigned 16-bit frame is written as a decimal integer with no decimal point,
every sample of any other (floating-point) frame is written with exactly two
decimal places (exactly one `'.'`, exactly two characters after it), the
samples are separated by whitespace (the whitespace tokenizer recovers
exactly the per-sample tokens), and the line is terminated by a newline. -/
theorem c4_sample_serialization :
    (∀ vs : List ℕ,
      splitTokens (writeFrame (FrameData.u16 vs)) = vs.map fmtNat) ∧
    (∀ v : ℕ, '.' ∉ fmtNat v) ∧
    (∀ qs : List ℚ,
      splitTokens (writeFrame (FrameData.f32 qs)) = qs.map fmtFixed2) ∧
    (∀ q : ℚ, ∃ a b, fmtFixed2 q = a ++ '.' :: b ∧ b.length = 2 ∧
      '.' ∉ a ∧ '.' ∉ b) ∧
    (∀ fd : FrameData, ∃ pre, writeFrame fd = pre ++ ['\n']) := by
  refine ⟨?_, ?_, ?_, ?_, ?_⟩
  · intro vs; exact splitTokens_writeFrame (FrameData.u16 vs)
  · intro v hv; exact natChars_ne_dot hv rfl
  · intro qs; exact splitTokens_writeFrame (FrameData.f32 qs)
  · intro q
    refine ⟨(if q < 0 then ['-'] else []) ++
        natChars (((round (|q| * 100)).toNat) / 100),
      twoFracChars (((round (|q| * 100)).toNat) % 100), rfl, rfl, ?_, ?_⟩
    · intro hd
      rcases List.mem_append.mp hd with h1 | h2
      · by_cases hq : q < 0
        · rw [if_pos hq, List.mem_singleton] at h1
          cases h1
        · rw [if_neg hq] at h1; cases h1
      · exact natChars_ne_dot h2 rfl
    · intro hd
      unfold twoFracChars at hd
      rcases List.mem_cons.mp hd with h1 | h2
      · exact digitChar_ne_dot _ h1.symm
      · rcases List.mem_cons.mp h2 with h3 | h4
        · exact digitChar_ne_dot _ h3.symm
        · cases h4
  · intro fd; cases fd <;> exact ⟨_, rfl⟩

/-! ## The acquisition loop (lines 179–225)

One iteration: wait for data-ready (external), `data, header = mi48.read()`;
on `data is None` the iteration is skipped (`continue`), otherwise the frame
is recorded (when `fd_data` is open), logged at debug level together with the
header, normalized and displayed, and finally `cv.waitKey(1)` is compared
against `ord('q')` to decide whether to `break`.  The external display
pipeline (`cv_filter`, `applyColorMap`, `resize`, `imshow`) is a deterministic
function of the normalized image `img8u`, so the state records `img8u` itself
as what is displayed. -/

/-- A frame as delivered by `mi48.read()` together with the sensor shape
`mi48.fpa_shape` used by `data_to_frame` (line 199). -/
structure Frame where
  width : ℕ
  height : ℕ
  data : FrameData
deriving DecidableEq

/-- Header metadata accompanying a frame (opaque record of status words). -/
def Header := List ℕ
deriving DecidableEq

/-- What one loop iteration receives: the two components of `mi48.read()`
(line 189) and the key returned by `cv.waitKey(1)` (line 223). -/
structure LoopInput where
  data : Option Frame
  header : Option Header
  key : ℤ
deriving DecidableEq

/-- `ord('q')` (line 224). -/
def quitKey : ℤ := 113

/-- Observable loop state: lines written to the recording sink, debug-log
entries (a function of header and frame, lines 202–204), and the sequence of
normalized images handed to the display pipeline. -/
structure LoopState where
  sink : List (List Char)
  logs : List (Header × FrameData)
  displayed : List (List ℕ)
deriving DecidableEq

/-- The empty state before the loop starts. -/
def initState : LoopState := ⟨[], [], []⟩

/-- One iteration of the main loop (lines 189–225).  Returns the new state
and whether the loop continues (`false` exactly when the quit key was read;
a `None` frame skips the whole body including the key check, line 192). -/
def step (recording : Bool) (st : LoopState) (inp : LoopInput) :
    LoopState × Bool :=
  match inp.data with
  | none => (st, true)
  | some f =>
    let st1 := if recording then
        { st with sink := st.sink ++ [writeFrame f.data] }
      else st
    let st2 :=
      match inp.header with
      | some h => { st1 with logs := st1.logs ++ [(h, f.data)] }
      | none => st1
    let st3 := { st2 with
      displayed := st2.displayed ++ [normalizeFrame (FrameData.samples f.data)] }
    (st3, if inp.key = quitKey then false else true)

/-- The main loop over a (finite prefix of the) sequence of driver reads:
iterate `step`, stopping early when an iteration signals quit. -/
def run (recording : Bool) : LoopState → List LoopInput → LoopState
  | st, [] => st
  | st, inp :: rest =>
    let p := step recording st inp
    if p.2 then run recording p.1 rest else p.1

theorem step_none (recording : Bool) (st : LoopState) (h : Option Header)
    (key : ℤ) : step recording st ⟨none, h, key⟩ = (st, true) := rfl

theorem step_some (recording : Bool) (st : LoopState) (f : Frame)
    (h : Option Header) (key : ℤ) :
    step recording st ⟨some f, h, key⟩ =
      (⟨(if recording then st.sink ++ [writeFrame f.data] else st.sink),
        (match h with
         | some hd => st.logs ++ [(hd, f.data)]
         | none => st.logs),
        st.displayed ++ [normalizeFrame (FrameData.samples f.data)]⟩,
       if key = quitKey then false else true) := by
  cases h <;> cases recording <;> rfl

theorem run_append_of_no_quit (recording : Bool) (pre rest : List LoopInput)
    (st : LoopState)
    (hpre : ∀ i ∈ pre, i.data = none ∨ i.key ≠ quitKey) :
    run recording st (pre ++ rest) = run recording (run recording st pre) rest := by
  induction pre generalizing st with
  | nil => rfl
  | cons i pre ih =>
    have hi := hpre i (List.mem_cons_self i pre)
    have hpre' : ∀ j ∈ pre, j.data = none ∨ j.key ≠ quitKey :=
      fun j hj => hpre j (List.mem_cons_of_mem i hj)
    rcases i with ⟨d, h, k⟩
    cases d with
    | none =>
      rw [List.cons_append, run, run, step_none]
      exact ih _ hpre'
    | some f =>
      rcases hi with hd | hk
      · cases hd
      · have hk' : k ≠ quitKey := hk
        rw [List.cons_append, run, run, step_some]
        rw [if_neg hk']
        exact ih _ hpre'

theorem run_sink_of_no_quit (inputs : List LoopInput) (st : LoopState)
    (hq : ∀ i ∈ inputs, i.key ≠ quitKey) :
    (run true st inputs).sink =
      st.sink ++ (inputs.filterMap LoopInput.data).map (fun f => writeFrame f.data) := by
  induction inputs generalizing st with
  | nil => simp [run]
  | cons i rest ih =>
    have hq' : ∀ j ∈ rest, j.key ≠ quitKey :=
      fun j hj => hq j (List.mem_cons_of_mem i hj)
    rcases i with ⟨d, h, k⟩
    have hk : k ≠ quitKey := hq _ (List.mem_cons_self _ _)
    cases d with
    | none =>
      simp only [run, step_none]
      rw [if_pos trivial]
      rw [ih st hq']
      simp [List.filterMap_cons]
    | some f =>
      simp only [run, step_some, if_neg hk]
      rw [if_pos trivial]
      rw [ih _ hq']
      simp [List.filterMap_cons]

theorem sampleTokens_length (fd : FrameData) :
    (sampleTokens fd).length = fd.size := by
  cases fd <;> simp [sampleTokens, FrameData.size]

theorem flatten_trailing_space {α : Type} (g : α → List Char) :
    ∀ vs : List α, vs ≠ [] →
      ∃ pre, (vs.map (fun v => g v ++ [' '])).flatten = pre ++ [' ']
  | [], h => absurd rfl h
  | [v], _ => ⟨g v, by simp⟩
  | v :: w :: rest, _ => by
    rcases flatten_trailing_space g (w :: rest) (by simp) with ⟨pre, hp⟩
    refine ⟨g v ++ [' '] ++ pre, ?_⟩
    simp only [List.map_cons, List.flatten_cons] at hp ⊢
    rw [hp]
    simp [List.append_assoc]

theorem writeFrame_trailing (fd : FrameData) (hsz : 0 < fd.size) :
    ∃ pre, writeFrame fd = pre ++ [' ', '\n'] := by
  cases fd with
  | u16 vs =>
    have hvs : vs ≠ [] := by
      intro hv; subst hv; simp [FrameData.size] at hsz
    rcases flatten_trailing_space fmtNat vs hvs with ⟨pre, hp⟩
    refine ⟨pre, ?_⟩
    rw [writeFrame, hp, List.append_assoc]
    rfl
  | f32 vs =>
    have hvs : vs ≠ [] := by
      intro hv; subst hv; simp [FrameData.size] at hsz
    rcases flatten_trailing_space fmtFixed2 vs hvs with ⟨pre, hp⟩
    refine ⟨pre, ?_⟩
    rw [writeFrame, hp, List.append_assoc]
    rfl

/-- **C5.** With recording enabled, processing a sequence of reads containing
`N` successfully read frames (no quit in between, so all are processed) hands
the recording sink exactly `N` lines, in order one `write_frame` line per
frame; a line's whitespace-separated tokens are the frame's samples in raster
order — `width × height` of them when the frame has that many samples — and
the line ends in a space followed by the newline. -/
theorem c5_recording_lines (inputs : List LoopInput)
    (hq : ∀ i ∈ inputs, i.key ≠ quitKey) :
    (run true initState inputs).sink =
      (inputs.filterMap LoopInput.data).map (fun f => writeFrame f.data) ∧
    (run true initState inputs).sink.length =
      (inputs.filterMap LoopInput.data).length ∧
    (∀ f : Frame, f.data.size = f.width * f.height →
      (splitTokens (writeFrame f.data)).length = f.width * f.height) ∧
    (∀ f : Frame, 0 < f.data.size →
      ∃ pre, writeFrame f.data = pre ++ [' ', '\n']) := by
  have hsink : (run true initState inputs).sink =
      (inputs.filterMap LoopInput.data).map (fun f => writeFrame f.data) := by
    rw [run_sink_of_no_quit inputs initState hq]
    rfl
  refine ⟨hsink, ?_, ?_, ?_⟩
  · rw [hsink, List.length_map]
  · intro f hf
    rw [splitTokens_writeFrame, sampleTokens_length, hf]
  · intro f hf
    exact writeFrame_trailing f.data hf

/-- Witness for C5: one empty read then one 1×1 `uint16` frame `[5]`,
recorded as the single line `"5 \n"`. -/
theorem c5_recording_lines_witness :
    (∀ i ∈ [LoopInput.mk none none 0,
            LoopInput.mk (some (Frame.mk 1 1 (FrameData.u16 [5]))) none 0],
      i.key ≠ quitKey) ∧
    ((run true initState
        [LoopInput.mk none none 0,
         LoopInput.mk (some (Frame.mk 1 1 (FrameData.u16 [5]))) none 0]).sink =
      (([LoopInput.mk none none 0,
         LoopInput.mk (some (Frame.mk 1 1 (FrameData.u16 [5]))) none 0].filterMap
           LoopInput.data)).map (fun f => writeFrame f.data) ∧
      (run true initState
        [LoopInput.mk none none 0,
         LoopInput.mk (some (Frame.mk 1 1 (FrameData.u16 [5]))) none 0]).sink.length =
      (([LoopInput.mk none none 0,
         LoopInput.mk (some (Frame.mk 1 1 (FrameData.u16 [5]))) none 0].filterMap
           LoopInput.data)).length ∧
      (∀ f : Frame, f.data.size = f.width * f.height →
        (splitTokens (writeFrame f.data)).length = f.width * f.height) ∧
      (∀ f : Frame, 0 < f.data.size →
        ∃ pre, writeFrame f.data = pre ++ [' ', '\n'])) := by
  constructor
  · intro i hi
    rcases List.mem_cons.mp hi with rfl | hi
    · decide
    · rcases List.mem_cons.mp hi with rfl | hi
      · decide
      · cases hi
  · refine c5_recording_lines _ ?_
    intro i hi
    rcases List.mem_cons.mp hi with rfl | hi
    · decide
    · rcases List.mem_cons.mp hi with rfl | hi
      · decide
      · cases hi

/-- **C6.** A loop iteration in which `mi48.read()` returns no frame is
skipped without error, writes nothing to the recording sink, the log, or the
display, and does not consult the quit key (the `continue` at line 192 comes
before the key check); the loop simply retries, and this holds for an
arbitrary number `k` of consecutive empty reads: the run over `k` empty reads
followed by anything is the run over the remainder from the unchanged state. -/
theorem c6_empty_read_skipped (recording : Bool) (k : ℕ)
    (h : Option Header) (key : ℤ) (rest : List LoopInput) (st : LoopState) :
    step recording st ⟨none, h, key⟩ = (st, true) ∧
    run recording st (List.replicate k ⟨none, h, key⟩ ++ rest) =
      run recording st rest := by
  refine ⟨rfl, ?_⟩
  induction k with
  | zero => rfl
  | succ k ih =>
    rw [List.replicate_succ, List.cons_append, run, step_none]
    exact ih

/-- **C9.** Headers do not influence the recorded or displayed output: two
iterations on the same frame data with different (non-`None`) headers produce
the same recording-sink contents, the same normalized display image sequence,
and the same continue/quit decision; only the debug-log entry (lines 202–204)
can differ. -/
theorem c9_header_noninterference (recording : Bool) (st : LoopState)
    (f : Frame) (h1 h2 : Header) (key : ℤ) :
    (step recording st ⟨some f, some h1, key⟩).1.sink =
      (step recording st ⟨some f, some h2, key⟩).1.sink ∧
    (step recording st ⟨some f, some h1, key⟩).1.displayed =
      (step recording st ⟨some f, some h2, key⟩).1.displayed ∧
    (step recording st ⟨some f, some h1, key⟩).2 =
      (step recording st ⟨some f, some h2, key⟩).2 := by
  refine ⟨?_, ?_, ?_⟩ <;> rw [step_some, step_some]

/-- **C10.** The quit-key check is the last step of an iteration: when the
loop exits because the quit key was pressed on an iteration that read frame
`f` (after a prefix of iterations that did not quit), the final state is
exactly the state after that iteration's full body — in particular `f`'s
serialized line is in the recording sink (when recording) and `f`'s
normalized image was displayed — and the inputs after the quit are ignored. -/
theorem c10_quit_processes_last_frame (recording : Bool)
    (pre : List LoopInput)
    (hpre : ∀ i ∈ pre, i.data = none ∨ i.key ≠ quitKey)
    (f : Frame) (h : Option Header) (post : List LoopInput) (st : LoopState) :
    run recording st (pre ++ ⟨some f, h, quitKey⟩ :: post) =
      (step recording (run recording st pre) ⟨some f, h, quitKey⟩).1 ∧
    (recording = true →
      writeFrame f.data ∈
        (run recording st (pre ++ ⟨some f, h, quitKey⟩ :: post)).sink) ∧
    normalizeFrame (FrameData.samples f.data) ∈
      (run recording st (pre ++ ⟨some f, h, quitKey⟩ :: post)).displayed := by
  have hquit : run recording st (pre ++ ⟨some f, h, quitKey⟩ :: post) =
      (step recording (run recording st pre) ⟨some f, h, quitKey⟩).1 := by
    rw [run_append_of_no_quit recording pre _ st hpre, run, step_some]
    simp
  refine ⟨hquit, ?_, ?_⟩
  · intro hrec
    rw [hquit, step_some, hrec]
    simp
  · rw [hquit, step_some]
    cases h <;> simp

/-- Witness for C10: one empty read, then a 1×1 frame `[5]` read on the
iteration that quits, with recording on; the frame's line `"5 \n"` is in the
sink and its normalized image `[0]` was displayed. -/
theorem c10_quit_processes_last_frame_witness :
    run true initState
        ([LoopInput.mk none none 0] ++
          ⟨some (Frame.mk 1 1 (FrameData.u16 [5])), none, quitKey⟩ ::
            [LoopInput.mk none none 0]) =
      (step true (run true initState [LoopInput.mk none none 0])
        ⟨some (Frame.mk 1 1 (FrameData.u16 [5])), none, quitKey⟩).1 ∧
    (true = true →
      writeFrame (Frame.mk 1 1 (FrameData.u16 [5])).data ∈
        (run true initState
          ([LoopInput.mk none none 0] ++
            ⟨some (Frame.mk 1 1 (FrameData.u16 [5])), none, quitKey⟩ ::
              [LoopInput.mk none none 0])).sink) ∧
    normalizeFrame (FrameData.samples (Frame.mk 1 1 (FrameData.u16 [5])).data) ∈
      (run true initState
        ([LoopInput.mk none none 0] ++
          ⟨some (Frame.mk 1 1 (FrameData.u16 [5])), none, quitKey⟩ ::
            [LoopInput.mk none none 0])).displayed :=
  c10_quit_processes_last_frame true [LoopInput.mk none none 0]
    (by
      intro i hi
      rcases List.mem_cons.mp hi with rfl | hi
      · left; rfl
      · cases hi)
    (Frame.mk 1 1 (FrameData.u16 [5])) none [LoopInput.mk none none 0] initState

/-! ## Shutdown and cleanup (signal handler, lines 90–95; `finally` block,
lines 227–235)

All three ways the loop ends — `break` on the quit key, `SIGINT`/`SIGTERM`
(whose handler raises `SystemExit` via `sys.exit(0)` inside the `try` body,
so the `finally` block still runs), and any other exception propagating out
of the loop — reach the single `finally` block.  The signal handler
additionally performs its own driver stop and window teardown first.  Effects
on resources are modelled by a small state machine; `fd_data.close()`
flushes and closes the sink. -/

/-- One cleanup effect, with the bounded stop timeout passed to `mi48.stop`
(in milliseconds, to keep the model over `ℕ`). -/
inductive CleanupAction where
  | stopDriver (stopTimeoutMs : ℕ)
  | closeSink
  | destroyWindows
deriving DecidableEq

/-- The `finally` block (lines 227–235): `mi48.stop(stop_timeout=0.5)`, then
`fd_data.close()` when a sink was opened, then `cv.destroyAllWindows()`. -/
def finallyCleanup (sinkOpened : Bool) : List CleanupAction :=
  [CleanupAction.stopDriver 500] ++
    (if sinkOpened then [CleanupAction.closeSink] else []) ++
    [CleanupAction.destroyWindows]

/-- How the loop ends. -/
inductive ExitPath where
  | quitKey
  | interruptSignal
  | fatalError
deriving DecidableEq

/-- The cleanup actions each shutdown path performs, in order.  The signal
handler (lines 90–95) first runs `mi48.stop(poll_timeout=0.25,
stop_timeout=1.2)` and `cv.destroyAllWindows()` itself, then `sys.exit(0)`
raises `SystemExit` inside the `try` body, so every path ends with the
`finally` block. -/
def shutdownActions (sinkOpened : Bool) : ExitPath → List CleanupAction
  | ExitPath.quitKey => finallyCleanup sinkOpened
  | ExitPath.interruptSignal =>
      [CleanupAction.stopDriver 1200, CleanupAction.destroyWindows] ++
        finallyCleanup sinkOpened
  | ExitPath.fatalError => finallyCleanup sinkOpened

/-- The externally visible resource state. -/
structure Resources where
  driverRunning : Bool
  sinkOpen : Bool
  windowsOpen : Bool
deriving DecidableEq

/-- Effect of one cleanup action: `mi48.stop` leaves the driver stopped,
`fd_data.close()` flushes and closes the sink, `cv.destroyAllWindows()`
releases display resources.  Each is safe to repeat. -/
def applyAction (r : Resources) : CleanupAction → Resources
  | CleanupAction.stopDriver _ => { r with driverRunning := false }
  | CleanupAction.closeSink => { r with sinkOpen := false }
  | CleanupAction.destroyWindows => { r with windowsOpen := false }

/-- Run a list of cleanup actions. -/
def runCleanup (r : Resources) (acts : List CleanupAction) : Resources :=
  acts.foldl applyAction r

theorem stopDriver_mem_finallyCleanup (b : Bool) :
    CleanupAction.stopDriver 500 ∈ finallyCleanup b := by
  cases b <;> decide

theorem closeSink_mem_finallyCleanup :
    CleanupAction.closeSink ∈ finallyCleanup true := by
  decide

theorem destroyWindows_mem_finallyCleanup (b : Bool) :
    CleanupAction.destroyWindows ∈ finallyCleanup b := by
  cases b <;> decide

theorem finallyCleanup_suffix (b : Bool) (p : ExitPath) :
    finallyCleanup b <:+ shutdownActions b p := by
  cases p with
  | quitKey => exact ⟨[], rfl⟩
  | interruptSignal =>
    exact ⟨[CleanupAction.stopDriver 1200, CleanupAction.destroyWindows], rfl⟩
  | fatalError => exact ⟨[], rfl⟩

theorem runCleanup_shutdown_state (p : ExitPath) (r : Resources) :
    runCleanup r (shutdownActions r.sinkOpen p) =
      Resources.mk false false false := by
  rcases r with ⟨dr, so, wo⟩
  cases p <;> cases so <;> rfl

theorem runCleanup_shutdown_closed (b : Bool) (p : ExitPath) :
    runCleanup (Resources.mk false false false) (shutdownActions b p) =
      Resources.mk false false false := by
  cases p <;> cases b <;> rfl

/-- **C7.** Every shutdown path of the loop — quit key, interrupt signal,
fatal driver error — passes through the one cleanup routine (the `finally`
block is a suffix of each path\'s action sequence), which stops the driver
with a bounded timeout, closes (and thereby flushes) the recording sink when
one is open, and releases the display resources; afterwards the driver is
stopped, the sink is closed and the windows are gone, and running the whole
shutdown sequence a second time changes nothing (idempotence). -/
theorem c7_shutdown_cleanup (p : ExitPath) (r : Resources) :
    (finallyCleanup r.sinkOpen) <:+ (shutdownActions r.sinkOpen p) ∧
    CleanupAction.stopDriver 500 ∈ finallyCleanup r.sinkOpen ∧
    (r.sinkOpen = true →
      CleanupAction.closeSink ∈ finallyCleanup r.sinkOpen) ∧
    CleanupAction.destroyWindows ∈ finallyCleanup r.sinkOpen ∧
    (runCleanup r (shutdownActions r.sinkOpen p)).driverRunning = false ∧
    (runCleanup r (shutdownActions r.sinkOpen p)).sinkOpen = false ∧
    (runCleanup r (shutdownActions r.sinkOpen p)).windowsOpen = false ∧
    runCleanup (runCleanup r (shutdownActions r.sinkOpen p))
        (shutdownActions r.sinkOpen p) =
      runCleanup r (shutdownActions r.sinkOpen p) := by
  have hstate := runCleanup_shutdown_state p r
  refine ⟨finallyCleanup_suffix r.sinkOpen p,
    stopDriver_mem_finallyCleanup r.sinkOpen, ?_,
    destroyWindows_mem_finallyCleanup r.sinkOpen,
    by rw [hstate], by rw [hstate], by rw [hstate], ?_⟩
  · intro hso
    rw [hso]
    exact closeSink_mem_finallyCleanup
  · rw [hstate, runCleanup_shutdown_closed r.sinkOpen p]

/-! ## Whole-process trace (main program, lines 101–235) -/

/-- The externally visible operations of the main program, in the order the
source performs them. -/
inductive MainOp where
  | setupHardware
  | openSink
  | startStream
  | waitReady
  | readFrame
  | writeLine
  | logHeader
  | display
  | keyCheck
  | stopDriver
  | closeSink
  | destroyWindows
deriving DecidableEq

/-- The operations of one loop iteration (lines 180–225) on input `inp`, and
whether the loop continues: wait for data-ready, read; a `None` frame ends
the iteration there (`continue`); otherwise write the line when recording,
log when a header is present, display, and check the quit key. -/
def iterOps (recording : Bool) (inp : LoopInput) : List MainOp × Bool :=
  match inp.data with
  | none => ([MainOp.waitReady, MainOp.readFrame], true)
  | some _ =>
    ([MainOp.waitReady, MainOp.readFrame] ++
      (if recording then [MainOp.writeLine] else []) ++
      (match inp.header with
       | some _ => [MainOp.logHeader]
       | none => []) ++
      [MainOp.display, MainOp.keyCheck],
     if inp.key = quitKey then false else true)

/-- The operations of the whole loop over a sequence of reads, stopping when
an iteration signals quit. -/
def loopOps (recording : Bool) : List LoopInput → List MainOp
  | [] => []
  | inp :: rest =>
    (iterOps recording inp).1 ++
      (if (iterOps recording inp).2 then loopOps recording rest else [])

/-- The whole program trace: hardware/driver setup (lines 101–164), one sink
open iff `--record` was given (lines 166–171), stream start (line 176), the
loop, then the `finally` block (lines 227–235). -/
def mainOps (recording : Bool) (inputs : List LoopInput) : List MainOp :=
  [MainOp.setupHardware] ++
    (if recording then [MainOp.openSink] else []) ++
    [MainOp.startStream] ++
    loopOps recording inputs ++
    [MainOp.stopDriver] ++
    (if recording then [MainOp.closeSink] else []) ++
    [MainOp.destroyWindows]

theorem openSink_not_in_iterOps (recording : Bool) (inp : LoopInput) :
    MainOp.openSink ∉ (iterOps recording inp).1 := by
  rcases inp with ⟨d, h, k⟩
  cases d <;> cases h <;> cases recording <;> simp [iterOps]

theorem openSink_not_in_loopOps (recording : Bool)
    (inputs : List LoopInput) :
    MainOp.openSink ∉ loopOps recording inputs := by
  induction inputs with
  | nil => simp [loopOps]
  | cons inp rest ih =>
    intro hmem
    rcases List.mem_append.mp hmem with h1 | h2
    · exact openSink_not_in_iterOps recording inp h1
    · rcases (inferInstance : Decidable ((iterOps recording inp).2 = true))
        with hc | hc
      · rw [if_neg hc] at h2; cases h2
      · rw [if_pos hc] at h2; exact ih h2

/-- **C8.** At most one recording sink is ever opened during the program\'s
lifetime: the whole-run trace contains the sink-open operation exactly once
when `--record` is given and never otherwise, every occurrence lies in the
setup prefix before the stream starts (the pre-loop prefix accounts for the
full count), and no operation of the acquisition loop opens a sink. -/
theorem c8_single_sink_open (recording : Bool) (inputs : List LoopInput) :
    (mainOps recording inputs).count MainOp.openSink ≤ 1 ∧
    (mainOps recording inputs).count MainOp.openSink =
      (if recording then 1 else 0) ∧
    ([MainOp.setupHardware] ++ (if recording then [MainOp.openSink] else []) ++
        [MainOp.startStream]).count MainOp.openSink =
      (mainOps recording inputs).count MainOp.openSink ∧
    MainOp.openSink ∉ loopOps recording inputs ∧
    (MainOp.openSink ∈ mainOps recording inputs → recording = true) := by
  have hloop : (loopOps recording inputs).count MainOp.openSink = 0 :=
    List.count_eq_zero.mpr (openSink_not_in_loopOps recording inputs)
  have hcount : (mainOps recording inputs).count MainOp.openSink =
      (if recording then 1 else 0) := by
    cases recording <;>
      simp [mainOps, List.count_append, hloop]
  refine ⟨?_, hcount, ?_, openSink_not_in_loopOps recording inputs, ?_⟩
  · rw [hcount]
    cases recording <;> simp
  · rw [hcount]
    cases recording <;> simp [List.count_append]
  · intro hmem
    by_contra hrec
    have hfalse : recording = false := by
      cases recording
      · rfl
      · exact absurd rfl hrec
    rw [hfalse] at hcount
    have : (mainOps recording inputs).count MainOp.openSink ≠ 0 := by
      rw [← List.count_pos_iff] at hmem
      omega
    rw [hfalse] at this
    simp at hcount
    exact this hcount

/-- Witness for C3 at the default invocation (`record = false`,
`framerate = 7`). -/
theorem c3_args_fps_attribute_missing_witness :
    setFpsArgument false 7 = none ∧
    getattrNS (parseArgsNamespace false 7) framerateAttr =
      some (ArgValue.numVal 7) :=
  c3_args_fps_attribute_missing false 7

/-- Witness for C4 at the concrete frames `uint16 [0, 42]` and
`float [3/2]`. -/
theorem c4_sample_serialization_witness :
    splitTokens (writeFrame (FrameData.u16 [0, 42])) = [fmtNat 0, fmtNat 42] ∧
    '.' ∉ fmtNat 42 ∧
    splitTokens (writeFrame (FrameData.f32 [3/2])) = [fmtFixed2 (3/2)] ∧
    (∃ a b, fmtFixed2 (3/2) = a ++ '.' :: b ∧ b.length = 2 ∧
      '.' ∉ a ∧ '.' ∉ b) ∧
    (∃ pre, writeFrame (FrameData.u16 [0, 42]) = pre ++ ['\n']) :=
  ⟨c4_sample_serialization.1 [0, 42], c4_sample_serialization.2.1 42,
   c4_sample_serialization.2.2.1 [3/2], c4_sample_serialization.2.2.2.1 (3/2),
   c4_sample_serialization.2.2.2.2 (FrameData.u16 [0, 42])⟩

/-- Witness for C6: three consecutive empty reads before a real frame. -/
theorem c6_empty_read_skipped_witness :
    step true initState (LoopInput.mk none none 0) = (initState, true) ∧
    run true initState (List.replicate 3 (LoopInput.mk none none 0) ++
        [LoopInput.mk (some (Frame.mk 1 1 (FrameData.u16 [7]))) none 0]) =
      run true initState
        [LoopInput.mk (some (Frame.mk 1 1 (FrameData.u16 [7]))) none 0] :=
  c6_empty_read_skipped true 3 none 0
    [LoopInput.mk (some (Frame.mk 1 1 (FrameData.u16 [7]))) none 0] initState

/-- Witness for C7 on the interrupt-signal path with every resource live. -/
theorem c7_shutdown_cleanup_witness :
    (finallyCleanup (Resources.mk true true true).sinkOpen <:+
      shutdownActions (Resources.mk true true true).sinkOpen
        ExitPath.interruptSignal) ∧
    CleanupAction.stopDriver 500 ∈
      finallyCleanup (Resources.mk true true true).sinkOpen ∧
    ((Resources.mk true true true).sinkOpen = true →
      CleanupAction.closeSink ∈
        finallyCleanup (Resources.mk true true true).sinkOpen) ∧
    CleanupAction.destroyWindows ∈
      finallyCleanup (Resources.mk true true true).sinkOpen ∧
    (runCleanup (Resources.mk true true true)
      (shutdownActions (Resources.mk true true true).sinkOpen
        ExitPath.interruptSignal)).driverRunning = false ∧
    (runCleanup (Resources.mk true true true)
      (shutdownActions (Resources.mk true true true).sinkOpen
        ExitPath.interruptSignal)).sinkOpen = false ∧
    (runCleanup (Resources.mk true true true)
      (shutdownActions (Resources.mk true true true).sinkOpen
        ExitPath.interruptSignal)).windowsOpen = false ∧
    runCleanup (runCleanup (Resources.mk true true true)
        (shutdownActions (Resources.mk true true true).sinkOpen
          ExitPath.interruptSignal))
        (shutdownActions (Resources.mk true true true).sinkOpen
          ExitPath.interruptSignal) =
      runCleanup (Resources.mk true true true)
        (shutdownActions (Resources.mk true true true).sinkOpen
          ExitPath.interruptSignal) :=
  c7_shutdown_cleanup ExitPath.interruptSignal (Resources.mk true true true)

/-- Witness for C8 with recording enabled over one empty read. -/
theorem c8_single_sink_open_witness :
    (mainOps true [LoopInput.mk none none 0]).count MainOp.openSink ≤ 1 ∧
    (mainOps true [LoopInput.mk none none 0]).count MainOp.openSink =
      (if true then 1 else 0) ∧
    ([MainOp.setupHardware] ++ (if true then [MainOp.openSink] else []) ++
        [MainOp.startStream]).count MainOp.openSink =
      (mainOps true [LoopInput.mk none none 0]).count MainOp.openSink ∧
    MainOp.openSink ∉ loopOps true [LoopInput.mk none none 0] ∧
    (MainOp.openSink ∈ mainOps true [LoopInput.mk none none 0] →
      true = true) :=
  c8_single_sink_open true [LoopInput.mk none none 0]

/-- Witness for C9: the same 1×1 frame under two different headers. -/
theorem c9_header_noninterference_witness :
    (step true initState
        (LoopInput.mk (some (Frame.mk 1 1 (FrameData.u16 [5])))
          (some (show Header from [1])) 0)).1.sink =
      (step true initState
        (LoopInput.mk (some (Frame.mk 1 1 (FrameData.u16 [5])))
          (some (show Header from [2])) 0)).1.sink ∧
    (step true initState
        (LoopInput.mk (some (Frame.mk 1 1 (FrameData.u16 [5])))
          (some (show Header from [1])) 0)).1.displayed =
      (step true initState
        (LoopInput.mk (some (Frame.mk 1 1 (FrameData.u16 [5])))
          (some (show Header from [2])) 0)).1.displayed ∧
    (step true initState
        (LoopInput.mk (some (Frame.mk 1 1 (FrameData.u16 [5])))
          (some (show Header from [1])) 0)).2 =
      (step true initState
        (LoopInput.mk (some (Frame.mk 1 1 (FrameData.u16 [5])))
          (some (show Header from [2])) 0)).2 :=
  c9_header_noninterference true initState (Frame.mk 1 1 (FrameData.u16 [5]))
    (show Header from [1]) (show Header from [2]) 0
